import Mathlib

/-!
Verification of the LightTrails collaborative-drawing repository.

The development shallowly embeds the synchronization core of the
repository: the server settings reconciler and broadcast fan-out
(`src/unnamed/part_001`), and the client trail store, network guards and
message handlers (`src/unnamed/part_000`, first `LightTrailsClient`
class).  JavaScript strings are embedded as `List Char`, JavaScript
numbers as the sum type `JNum` (NaN, the two infinities, and finite
values modelled as rationals), and loosely-typed message fields as the
sum type `JVal`.
-/

namespace LightTrails

/-- Model of a JavaScript number: NaN, +Infinity, -Infinity, or a finite
value (idealized as a rational; every value the repository manipulates is
produced from integer timestamps and decimal literals). -/
inductive JNum where
  | nan
  | inf
  | ninf
  | fin (q : ℚ)
deriving DecidableEq

/-- JavaScript `Math.max` on two arguments: NaN is absorbing, otherwise
the usual order with the infinities at the ends. -/
def jsMax : JNum → JNum → JNum
  | .nan, _ => .nan
  | _, .nan => .nan
  | .inf, _ => .inf
  | _, .inf => .inf
  | .ninf, b => b
  | a, .ninf => a
  | .fin a, .fin b => .fin (if a ≤ b then b else a)

/-- JavaScript `Math.min` on two arguments. -/
def jsMin : JNum → JNum → JNum
  | .nan, _ => .nan
  | _, .nan => .nan
  | .ninf, _ => .ninf
  | _, .ninf => .ninf
  | .inf, b => b
  | a, .inf => a
  | .fin a, .fin b => .fin (if a ≤ b then a else b)

/-- Embeds `const clamp = (value, min, max) => Math.min(Math.max(value, min), max)`
from `src/unnamed/part_001` line 70. -/
def clamp (value lo hi : JNum) : JNum := jsMin (jsMax value lo) hi

/-- Model of a dynamically-typed JavaScript value as it can appear in a
parsed message field: `undefined` (also covering an absent field),
`null`, a boolean, a number, a string, or some other object (arrays and
objects collapse to `obj`: they are truthy, not strings and not
numbers, which is all the embedded code observes about them). -/
inductive JVal where
  | undef
  | nullV
  | boolVal (b : Bool)
  | num (n : JNum)
  | str (s : List Char)
  | obj
deriving DecidableEq

/-- JavaScript truthiness of a `JVal`: `undefined`, `null`, `false`,
`0`, `NaN` and the empty string are falsy, everything else truthy. -/
def truthy : JVal → Bool
  | .undef => false
  | .nullV => false
  | .boolVal b => b
  | .num .nan => false
  | .num (.fin q) => q != 0
  | .num _ => true
  | .str s => s != []
  | .obj => true

/-- Whitespace test used by the embedded `String.prototype.trim`. -/
def jsWs (c : Char) : Bool := c.isWhitespace

/-- Embeds JavaScript `s.trim()`: drop whitespace from both ends. -/
def jsTrim (s : List Char) : List Char :=
  ((s.dropWhile jsWs).reverse.dropWhile jsWs).reverse

/-- True when the string ends in a whitespace character. -/
def endsInWs (s : List Char) : Bool :=
  match s.getLast? with
  | some c => jsWs c
  | none => false

/-- Sanitized settings record: the shape of `DEFAULT_SETTINGS` and of
every value stored in `clientInfo.metadata.settings` on the server
(`src/unnamed/part_001`).  Every fallback passed to `sanitizeSettings`
in the repository has this shape. -/
structure SettingsRecord where
  color : List Char
  size : JNum
  glow : JNum
  cursorMode : List Char
  username : List Char
deriving DecidableEq

/-- Embeds `DEFAULT_SETTINGS` from `src/unnamed/part_001` lines 62-68. -/
def DEFAULT_SETTINGS : SettingsRecord :=
  { color := "#ff6b6b".toList
    size := .fin 1
    glow := .fin (6 / 5)
    cursorMode := "halo".toList
    username := [] }

/-- Raw settings input to `sanitizeSettings`: each field is an arbitrary
JavaScript value (absent fields are `undef`). -/
structure RawSettings where
  color : JVal := .undef
  size : JVal := .undef
  glow : JVal := .undef
  cursorMode : JVal := .undef
  username : JVal := .undef
deriving DecidableEq

/-- Embeds the color branch of `sanitizeSettings`
(`src/unnamed/part_001` lines 75-77):
`typeof settings.color === 'string' && settings.color.trim()
  ? settings.color.trim() : fallback.color || DEFAULT_SETTINGS.color`. -/
def sanitizeColor (v : JVal) (fb : List Char) : List Char :=
  match v with
  | .str s => if jsTrim s ≠ [] then jsTrim s
              else if fb ≠ [] then fb else DEFAULT_SETTINGS.color
  | _ => if fb ≠ [] then fb else DEFAULT_SETTINGS.color

/-- Embeds `typeof settings.size === 'number' ? settings.size : fallback.size`
(`src/unnamed/part_001` lines 79 and 82).  The subsequent
`?? DEFAULT_SETTINGS.size` in the source is the identity here because
every fallback record in the repository carries a number in this field. -/
def numOr (v : JVal) (fb : JNum) : JNum :=
  match v with
  | .num n => n
  | _ => fb

/-- Embeds the cursor-mode branch of `sanitizeSettings`
(`src/unnamed/part_001` lines 85-86):
`const cursorModeValue = settings.cursorMode || fallback.cursorMode || DEFAULT_SETTINGS.cursorMode;
 sanitized.cursorMode = cursorModeValue === 'star' ? 'star' : 'halo'`. -/
def sanitizeCursorMode (v : JVal) (fb : List Char) : List Char :=
  let cursorModeValue : JVal :=
    if truthy v then v
    else if fb ≠ [] then .str fb
    else .str DEFAULT_SETTINGS.cursorMode
  if cursorModeValue = .str ("star".toList) then "star".toList else "halo".toList

/-- Embeds the username branch of `sanitizeSettings`
(`src/unnamed/part_001` lines 88-94): use the trimmed raw username
truncated to 18 characters when non-empty, else the trimmed fallback
username truncated to 18 characters when non-empty, else the empty
string. -/
def sanitizeUsername (v : JVal) (fb : List Char) : List Char :=
  match v with
  | .str u => if jsTrim u ≠ [] then (jsTrim u).take 18
              else if fb ≠ [] ∧ jsTrim fb ≠ [] then (jsTrim fb).take 18 else []
  | _ => if fb ≠ [] ∧ jsTrim fb ≠ [] then (jsTrim fb).take 18 else []

/-- Embeds `sanitizeSettings(settings, fallback)` from
`src/unnamed/part_001` lines 72-97. -/
def sanitizeSettings (settings : RawSettings) (fallback : SettingsRecord) : SettingsRecord :=
  { color := sanitizeColor settings.color fallback.color
    size := clamp (numOr settings.size fallback.size) (.fin (1 / 2)) (.fin 3)
    glow := clamp (numOr settings.glow fallback.glow) (.fin (1 / 2)) (.fin 3)
    cursorMode := sanitizeCursorMode settings.cursorMode fallback.cursorMode
    username := sanitizeUsername settings.username fallback.username }

/-- View of a sanitized record as a raw input, used to state idempotence
of `sanitizeSettings` the way the specification does
(`sanitize(sanitize(x,f),f)`): each field of the record is fed back as a
JavaScript value of the corresponding primitive type. -/
def toRaw (s : SettingsRecord) : RawSettings :=
  { color := .str s.color
    size := .num s.size
    glow := .num s.glow
    cursorMode := .str s.cursorMode
    username := .str s.username }

/-- Embeds `getFallbackUsername(clientId)` from `src/unnamed/part_000`
lines 309-312: `if (!clientId) return 'Stellar';
return Star-(clientId.slice(-4).toUpperCase())`. -/
def getFallbackUsername (clientId : List Char) : List Char :=
  if clientId = [] then "Stellar".toList
  else "Star-".toList ++ (clientId.drop (clientId.length - 4)).map Char.toUpper

/-! ## Client trail store (`src/unnamed/part_000`, first class) -/

/-- Trail point as stored in `allTrails` on the client; the decorative
fields (color, size, glow) do not influence pruning and are carried
opaquely. -/
structure TrailPoint where
  x : ℚ
  y : ℚ
  timestamp : ℚ
deriving DecidableEq

/-- Embeds `this.trailFadeTime = 4000` (`src/unnamed/part_000` line 111). -/
def trailFadeTime : ℚ := 4000

/-- Embeds `this.minAlpha = 0.05` (`src/unnamed/part_000` line 113). -/
def minAlpha : ℚ := 1 / 20

/-- Embeds the pruning predicate of `renderAllTrails`
(`src/unnamed/part_000` lines 967-975): keep a point when its age is
below `trailFadeTime` and its linear residual opacity
`1 - age / trailFadeTime` is strictly above `minAlpha`. -/
def pointActive (now : ℚ) (point : TrailPoint) : Bool :=
  let age := now - point.timestamp
  if age ≥ trailFadeTime then false
  else
    let fadeProgress := age / trailFadeTime
    let alpha := 1 - fadeProgress
    alpha > minAlpha

/-- Client trail store: the `allTrails` map, ordered by insertion as a
JavaScript `Map` is. -/
abbrev TrailStore : Type := List (List Char × List TrailPoint)

/-- Embeds the state effect of `renderAllTrails`
(`src/unnamed/part_000` lines 963-995): filter every identity's trail by
`pointActive`, then delete identities whose filtered trail is empty
(collected in `clientsToRemove` and deleted after the pass). -/
def renderPrune (now : ℚ) (trails : TrailStore) : TrailStore :=
  (trails.map (fun e => (e.1, e.2.filter (pointActive now)))).filter
    (fun e => !e.2.isEmpty)

/-! ## Server broadcast fan-out (`src/unnamed/part_001` lines 322-340) -/

/-- Server-side view of a connection as `broadcast` observes it: its
identity, whether `ws.readyState === WebSocket.OPEN`, whether
`ws.send` throws, and the events delivered to it so far. -/
structure Conn where
  id : ℕ
  readyOpen : Bool
  failSend : Bool
  inbox : List ℕ
deriving DecidableEq

/-- Embeds `broadcast(data, sender)` from `src/unnamed/part_001` lines
322-340: iterate the registry in order; skip the sender and connections
that are not open; `ws.send` appends the event to the inbox, and a
throwing send deletes the connection from the registry
(`clients.delete(ws)`) without aborting the iteration.  Returns the new
registry together with the ids removed, in removal order. -/
def broadcast (event : ℕ) (sender : Option ℕ) : List Conn → List Conn × List ℕ
  | [] => ([], [])
  | c :: rest =>
    if sender = some c.id ∨ c.readyOpen = false then
      let r := broadcast event sender rest
      (c :: r.1, r.2)
    else if c.failSend then
      let r := broadcast event sender rest
      (r.1, c.id :: r.2)
    else
      let r := broadcast event sender rest
      ({ c with inbox := c.inbox ++ [event] } :: r.1, r.2)

/-- Iterates `broadcast` over a list of events, threading the registry
and concatenating the removal log. -/
def broadcastAll (events : List ℕ) (sender : Option ℕ) (reg : List Conn) :
    List Conn × List ℕ :=
  match events with
  | [] => (reg, [])
  | e :: es =>
    let r1 := broadcast e sender reg
    let r2 := broadcastAll es sender r1.1
    (r2.1, r1.2 ++ r2.2)

/-! ## Server liveness monitor (`src/unnamed/part_001` lines 271-284 and
299-314) -/

/-- Server-to-client event relevant to the liveness monitor: the
`clientLeft` message; `clientId : Option ℕ` models the JavaScript field,
`none` standing for `undefined` (which `JSON.stringify` omits). -/
structure LeftMsg where
  clientId : Option ℕ
  clientCount : ℕ
deriving DecidableEq

/-- Server-side connection for the liveness model: `isAlive` is the
`ws.isAlive` flag the heartbeat checks, `leftInbox` collects the
`clientLeft` events delivered to the connection. -/
structure SConn where
  id : ℕ
  isAlive : Bool
  readyOpen : Bool
  leftInbox : List LeftMsg
deriving DecidableEq

/-- Embeds the `ws.on('close')` handler (`src/unnamed/part_001` lines
271-284) firing for the connection with id `wsId`: look the connection
up in the current registry (`clients.get(ws)`), delete it, and broadcast
`{ type: 'clientLeft', clientId: clientInfo?.id, clientCount: clients.size }`
to every remaining open connection.  Returns the new registry and the
broadcast message. -/
def closeHandler (reg : List SConn) (wsId : ℕ) : List SConn × LeftMsg :=
  let clientInfo := reg.find? (fun c => c.id == wsId)
  let reg1 := reg.filter (fun c => c.id != wsId)
  let msg : LeftMsg := { clientId := clientInfo.map (·.id), clientCount := reg1.length }
  (reg1.map (fun c => if c.readyOpen then { c with leftInbox := c.leftInbox ++ [msg] } else c),
   msg)

/-- Embeds the heartbeat branch for a connection whose `isAlive` flag is
down (`src/unnamed/part_001` lines 303-308) followed by the close event
that `ws.terminate()` triggers: the heartbeat first runs
`clients.delete(ws)`, then the close handler runs on the already-evicted
registry. -/
def heartbeatOnDead (reg : List SConn) (wsId : ℕ) : List SConn × LeftMsg :=
  let regAfterDelete := reg.filter (fun c => c.id != wsId)
  closeHandler regAfterDelete wsId

/-! ## Client socket guards (`src/unnamed/part_000` lines 202-228,
764-824, 833-859, 1395-1402) -/

/-- Client view of `this.ws.readyState`. -/
inductive ReadyState where
  | connecting
  | opened
  | closing
  | closed
deriving DecidableEq

/-- Outbound client message kinds relevant to the socket guards. -/
inductive COut where
  | updateSettings
  | lightTrail
  | mousePosition
deriving DecidableEq

/-- Client network state: the socket state, whether a
`settingsUpdateTimeout` retry timer is pending, and the messages written
to the socket so far. -/
structure ClientNet where
  ready : ReadyState
  settingsTimerPending : Bool
  sent : List COut
deriving DecidableEq

/-- Embeds `sendSettingsUpdate()` (`src/unnamed/part_000` lines
202-228): clear any pending timer; when the socket is not open,
schedule a 320 ms retry of itself and send nothing; otherwise write the
`updateSettings` message to the socket. -/
def sendSettingsUpdate (st : ClientNet) : ClientNet :=
  let st1 := { st with settingsTimerPending := false }
  if st1.ready ≠ .opened then
    { st1 with settingsTimerPending := true }
  else
    { st1 with sent := st1.sent ++ [COut.updateSettings] }

/-- Fires the pending settings retry timer, which simply invokes
`sendSettingsUpdate` again (`src/unnamed/part_000` lines 209-212). -/
def settingsTimerFire (st : ClientNet) : ClientNet :=
  if st.settingsTimerPending then sendSettingsUpdate st else st

/-- Embeds the transmission guard of `draw(e)`
(`src/unnamed/part_000` lines 807-823): the `lightTrail` message is
written only when the socket is open; otherwise nothing is sent, queued
or scheduled. -/
def drawSendGuard (st : ClientNet) : ClientNet :=
  if st.ready = .opened then { st with sent := st.sent ++ [COut.lightTrail] } else st

/-- Embeds the transmission guard of `trackMousePosition(e)`
(`src/unnamed/part_000` lines 846-858). -/
def mouseSendGuard (st : ClientNet) : ClientNet :=
  if st.ready = .opened then { st with sent := st.sent ++ [COut.mousePosition] } else st

/-- Models the socket transitioning to the open state. -/
def socketOpens (st : ClientNet) : ClientNet := { st with ready := .opened }

/-! ## Client message handling state (`src/unnamed/part_000` lines
1650-1779) -/

/-- Remote cursor sample held in `otherCursors`. -/
structure CursorSample where
  x : ℚ
  y : ℚ
  timestamp : ℚ
deriving DecidableEq

/-- Client store slice touched by `handleMessage`: the trail map, the
remote cursor map, and the per-identity settings mirror. -/
structure ClientStore where
  allTrails : TrailStore
  otherCursors : List (List Char × CursorSample)
  userSettings : List (List Char × SettingsRecord)

/-- Embeds the `case 'clear'` branch of `handleMessage`
(`src/unnamed/part_000` lines 1725-1731): `this.allTrails.clear()` and
`this.otherCursors.clear()`; `userSettings` is not touched. -/
def handleClearMessage (st : ClientStore) : ClientStore :=
  { st with allTrails := [], otherCursors := [] }

/-- Opacity-based retention predicate following the words of claim C4
and spec section 4.5: age below the fade duration and quadratic
ease-out opacity, clamped to the unit interval, strictly above the
minimum-visibility floor.  Stated only for comparison with the source
predicate `pointActive`; it is not part of the embedded code. -/
def specOpacityKeep (now : ℚ) (p : TrailPoint) : Prop :=
  now - p.timestamp < trailFadeTime ∧
    minAlpha < min 1 (max 0 (1 - ((now - p.timestamp) / trailFadeTime) ^ 2))

/-! ## Helper lemmas -/

/-- A list whose head does not satisfy the predicate is unchanged by
`dropWhile`. -/
theorem dropWhile_eq_self_of_head (p : Char → Bool) (l : List Char)
    (h : ∀ c, l.head? = some c → p c = false) : l.dropWhile p = l := by
  cases l with
  | nil => rfl
  | cons x xs =>
    rw [List.dropWhile_cons, h x rfl]
    simp

/-- dropWhile keeps the last element when its result is non-empty. -/
theorem getLast?_dropWhile (p : Char → Bool) (l : List Char)
    (h : l.dropWhile p ≠ []) : (l.dropWhile p).getLast? = l.getLast? := by
  induction l with
  | nil => simp at h
  | cons x xs ih =>
    rw [List.dropWhile_cons] at h ⊢
    by_cases hp : p x = true
    · rw [if_pos hp] at h ⊢
      rw [ih h]
      have hxs : xs ≠ [] := by
        intro hn; rw [hn] at h; simp at h
      cases xs with
      | nil => exact absurd rfl hxs
      | cons y ys => rw [List.getLast?_cons_cons]
    · rw [if_neg hp]

/-- Head of a dropWhile result does not satisfy the predicate. -/
theorem head?_dropWhile_false (p : Char → Bool) (l : List Char) (c : Char)
    (h : (l.dropWhile p).head? = some c) : p c = false := by
  have := List.head?_dropWhile_not p l
  rw [h] at this
  exact this

/-- Head character of a trimmed string is not whitespace. -/
theorem jsTrim_head (s : List Char) (c : Char)
    (h : (jsTrim s).head? = some c) : jsWs c = false := by
  unfold jsTrim at h
  rw [List.head?_reverse] at h
  have hne : (((s.dropWhile jsWs).reverse).dropWhile jsWs) ≠ [] := by
    intro hn; rw [hn] at h; simp at h
  rw [getLast?_dropWhile jsWs _ hne, List.getLast?_reverse] at h
  exact head?_dropWhile_false jsWs _ c h

/-- Last character of a trimmed string is not whitespace. -/
theorem jsTrim_last (s : List Char) (c : Char)
    (h : (jsTrim s).getLast? = some c) : jsWs c = false := by
  unfold jsTrim at h
  rw [List.getLast?_reverse] at h
  exact head?_dropWhile_false jsWs _ c h

/-- A string whose two ends are not whitespace is unchanged by trimming. -/
theorem jsTrim_eq_self (s : List Char)
    (hh : ∀ c, s.head? = some c → jsWs c = false)
    (hl : ∀ c, s.getLast? = some c → jsWs c = false) : jsTrim s = s := by
  unfold jsTrim
  rw [dropWhile_eq_self_of_head jsWs s hh]
  rw [dropWhile_eq_self_of_head jsWs s.reverse
    (by intro c hc; rw [List.head?_reverse] at hc; exact hl c hc)]
  exact List.reverse_reverse s

/-- Trimming is idempotent. -/
theorem jsTrim_idem (s : List Char) : jsTrim (jsTrim s) = jsTrim s :=
  jsTrim_eq_self (jsTrim s) (jsTrim_head s) (jsTrim_last s)

/-- Trimming the empty string gives the empty string. -/
theorem jsTrim_nil : jsTrim [] = [] := rfl

/-- Head of a take-18 truncation. -/
theorem head?_take18 (l : List Char) : (l.take 18).head? = l.head? := by
  cases l <;> rfl

/-- A take-18 truncation is empty only for the empty list. -/
theorem take18_ne_nil (l : List Char) (h : l ≠ []) : l.take 18 ≠ [] := by
  cases l with
  | nil => exact absurd rfl h
  | cons x xs => simp [List.take]

/-- Truncation to 18 characters yields at most 18 characters. -/
theorem take18_len_le (l : List Char) : (l.take 18).length ≤ 18 := by
  rw [List.length_take]; exact min_le_left _ _

/-- Truncating an already-truncated username is the identity. -/
theorem take18_take18 (l : List Char) : (l.take 18).take 18 = l.take 18 := by
  rw [List.take_take]
  norm_num

/-- Finite case of jsMax agrees with the lattice max. -/
theorem jsMax_fin (a b : ℚ) : jsMax (.fin a) (.fin b) = .fin (max a b) := by
  rw [max_def]
  rfl

/-- Finite case of jsMin agrees with the lattice min. -/
theorem jsMin_fin (a b : ℚ) : jsMin (.fin a) (.fin b) = .fin (min a b) := by
  rw [min_def]
  rfl

/-- Clamping to `[0.5, 3]` is idempotent, NaN included. -/
theorem clamp_idem (v : JNum) :
    clamp (clamp v (.fin (1 / 2)) (.fin 3)) (.fin (1 / 2)) (.fin 3) =
      clamp v (.fin (1 / 2)) (.fin 3) := by
  cases v with
  | nan => rfl
  | inf =>
    have h1 : clamp JNum.inf (.fin (1/2)) (.fin 3) = .fin 3 := rfl
    rw [h1]
    simp only [clamp, jsMax_fin, jsMin_fin]
    rw [max_eq_left (by norm_num), min_self]
  | ninf =>
    simp only [clamp, jsMax, jsMin, jsMax_fin, jsMin_fin]
    norm_num
  | fin q =>
    simp only [clamp, jsMax_fin, jsMin_fin]
    congr 1
    have h1 : (1 : ℚ)/2 ≤ min (max q (1/2)) 3 :=
      le_min (le_max_right q (1/2)) (by norm_num)
    rw [max_eq_left h1, min_eq_left (min_le_right _ _)]

/-- Clamping a non-NaN value to `[0.5, 3]` yields a finite value in range. -/
theorem clamp_range (v : JNum) (h : v ≠ .nan) :
    ∃ q : ℚ, clamp v (.fin (1 / 2)) (.fin 3) = .fin q ∧ 1 / 2 ≤ q ∧ q ≤ 3 := by
  cases v with
  | nan => exact absurd rfl h
  | inf =>
    refine ⟨3, ?_, by norm_num, le_refl 3⟩
    simp only [clamp, jsMax, jsMin]
  | ninf =>
    refine ⟨1/2, ?_, le_refl _, by norm_num⟩
    simp only [clamp, jsMax, jsMin_fin]
    norm_num
  | fin q =>
    refine ⟨min (max q (1/2)) 3, by simp [clamp, jsMax_fin, jsMin_fin], ?_, min_le_right _ _⟩
    exact le_min (le_max_right q (1/2)) (by norm_num)

/-- Default color is non-empty. -/
theorem colorDefault_ne_nil : DEFAULT_SETTINGS.color ≠ [] := by decide

/-- Sanitized color is never the empty string. -/
theorem sanitizeColor_ne_nil (v : JVal) (fb : List Char) : sanitizeColor v fb ≠ [] := by
  have hfb : (if fb ≠ [] then fb else DEFAULT_SETTINGS.color) ≠ [] := by
    split
    · assumption
    · exact colorDefault_ne_nil
  cases v <;> simp only [sanitizeColor] <;> try exact hfb
  case str s =>
    split
    · assumption
    · exact hfb

/-- Star-or-halo shape of the final cursor-mode test. -/
theorem starHaloAux (w : JVal) :
    (if w = JVal.str ("star".toList) then "star".toList else "halo".toList) = "halo".toList ∨
    (if w = JVal.str ("star".toList) then "star".toList else "halo".toList) = "star".toList := by
  split
  · right; rfl
  · left; rfl

/-- Sanitized cursor mode is either halo or star. -/
theorem sanitizeCursorMode_cases (v : JVal) (fb : List Char) :
    sanitizeCursorMode v fb = "halo".toList ∨ sanitizeCursorMode v fb = "star".toList := by
  unfold sanitizeCursorMode
  dsimp only
  exact starHaloAux _

/-- Sanitized username has at most 18 characters. -/
theorem sanitizeUsername_len (v : JVal) (fb : List Char) :
    (sanitizeUsername v fb).length ≤ 18 := by
  have hfb :
      (if fb ≠ [] ∧ jsTrim fb ≠ [] then (jsTrim fb).take 18 else ([] : List Char)).length ≤ 18 := by
    split
    · exact take18_len_le _
    · simp
  cases v <;> simp only [sanitizeUsername] <;> try exact hfb
  case str s =>
    split
    · exact take18_len_le _
    · exact hfb

/-- Second sanitization pass fixes the fallback-or-default color value,
provided the fallback color is trimmed or whitespace-only. -/
theorem sanitizeColor_fb_fixed (fb : List Char) (hfb : jsTrim fb = fb ∨ jsTrim fb = []) :
    sanitizeColor (.str (if fb ≠ [] then fb else DEFAULT_SETTINGS.color)) fb =
      (if fb ≠ [] then fb else DEFAULT_SETTINGS.color) := by
  by_cases h : fb = []
  · subst h
    decide
  · have hcond : fb ≠ [] := h
    rw [if_pos hcond]
    rcases hfb with ht | ht
    · simp only [sanitizeColor]
      rw [ht, if_pos hcond]
    · simp only [sanitizeColor]
      rw [ht]
      rw [if_neg (by simp), if_pos hcond]

/-- Color idempotence: a second pass through the color branch is the
identity when the fallback color is trimmed or whitespace-only. -/
theorem sanitizeColor_idem (v : JVal) (fb : List Char)
    (hfb : jsTrim fb = fb ∨ jsTrim fb = []) :
    sanitizeColor (.str (sanitizeColor v fb)) fb = sanitizeColor v fb := by
  cases v <;> simp only [sanitizeColor] <;> try exact sanitizeColor_fb_fixed fb hfb
  case str s =>
    by_cases h : jsTrim s ≠ []
    · rw [if_pos h]
      show sanitizeColor (.str (jsTrim s)) fb = jsTrim s
      simp only [sanitizeColor, jsTrim_idem]
      rw [if_pos h]
    · rw [if_neg h]
      exact sanitizeColor_fb_fixed fb hfb

/-- A trimmed-then-truncated username with no trailing whitespace is a
fixed point of trim and of truncation. -/
theorem trimTake_fixed (u : List Char) (hne : jsTrim u ≠ [])
    (hend : endsInWs ((jsTrim u).take 18) = false) :
    jsTrim ((jsTrim u).take 18) = (jsTrim u).take 18 ∧ (jsTrim u).take 18 ≠ [] := by
  have hne18 : (jsTrim u).take 18 ≠ [] := take18_ne_nil _ hne
  refine ⟨jsTrim_eq_self _ ?_ ?_, hne18⟩
  · intro c hc
    rw [head?_take18] at hc
    exact jsTrim_head u c hc
  · intro c hc
    unfold endsInWs at hend
    rw [hc] at hend
    exact hend

/-- Username idempotence under the no-trailing-whitespace side
conditions. -/
theorem sanitizeUsername_idem (v : JVal) (fb : List Char)
    (hv : ∀ u, v = .str u → endsInWs ((jsTrim u).take 18) = false)
    (hfb : endsInWs ((jsTrim fb).take 18) = false) :
    sanitizeUsername (.str (sanitizeUsername v fb)) fb = sanitizeUsername v fb := by
  have hfbCase :
      sanitizeUsername
          (.str (if fb ≠ [] ∧ jsTrim fb ≠ [] then (jsTrim fb).take 18 else ([] : List Char))) fb =
        (if fb ≠ [] ∧ jsTrim fb ≠ [] then (jsTrim fb).take 18 else ([] : List Char)) := by
    split
    · next hc =>
      obtain ⟨hfix, hne18⟩ := trimTake_fixed fb hc.2 hfb
      simp only [sanitizeUsername]
      rw [if_pos (by rw [hfix]; exact hne18), hfix, take18_take18]
    · next hc =>
      simp only [sanitizeUsername, jsTrim_nil]
      rw [if_neg (by simp), if_neg hc]
  cases v <;> simp only [sanitizeUsername] <;> try exact hfbCase
  case str s =>
    by_cases h : jsTrim s ≠ []
    · rw [if_pos h]
      obtain ⟨hfix, hne18⟩ := trimTake_fixed s h (hv s rfl)
      show sanitizeUsername (.str ((jsTrim s).take 18)) fb = (jsTrim s).take 18
      simp only [sanitizeUsername]
      rw [if_pos (by rw [hfix]; exact hne18), hfix, take18_take18]
    · rw [if_neg h]
      exact hfbCase

/-- Cursor-mode idempotence: a second pass is always the identity. -/
theorem sanitizeCursorMode_idem (v : JVal) (fb : List Char) :
    sanitizeCursorMode (.str (sanitizeCursorMode v fb)) fb = sanitizeCursorMode v fb := by
  rcases sanitizeCursorMode_cases v fb with h | h <;> rw [h] <;>
    simp [sanitizeCursorMode, truthy]

/-- In an association list with distinct keys, a key determines its
value. -/
theorem keyUnique {α β : Type} [DecidableEq α] (l : List (α × β))
    (h : (l.map Prod.fst).Nodup) {k : α} {a b : β}
    (ha : (k, a) ∈ l) (hb : (k, b) ∈ l) : a = b := by
  induction l with
  | nil => simp at ha
  | cons e es ih =>
    rw [List.map_cons, List.nodup_cons] at h
    rcases List.mem_cons.mp ha with ha1 | ha1 <;> rcases List.mem_cons.mp hb with hb1 | hb1
    · have hab : (k, a) = (k, b) := ha1.trans hb1.symm
      exact ((Prod.mk.injEq _ _ _ _).mp hab).2
    · exfalso
      apply h.1
      rw [← ha1]
      exact List.mem_map.mpr ⟨(k, b), hb1, rfl⟩
    · exfalso
      apply h.1
      rw [← hb1]
      exact List.mem_map.mpr ⟨(k, a), ha1, rfl⟩
    · exact ih h.2 ha1 hb1

/-- The pruning predicate in propositional form. -/
theorem pointActive_iff (now : ℚ) (p : TrailPoint) :
    pointActive now p = true ↔
      now - p.timestamp < trailFadeTime ∧
        minAlpha < 1 - (now - p.timestamp) / trailFadeTime := by
  unfold pointActive
  dsimp only
  split
  · next hge =>
    simp only [Bool.false_eq_true, false_iff]
    intro hcon
    exact absurd hcon.1 (not_lt.mpr hge)
  · next hge =>
    rw [not_le] at hge
    simp [hge]

/-- One broadcast over an all-open registry: non-failing connections get
the event appended, failing ones are removed, in iteration order. -/
theorem broadcast_all_open (e : ℕ) (reg : List Conn)
    (h : ∀ c ∈ reg, c.readyOpen = true) :
    broadcast e none reg =
      ((reg.filter (fun c => !c.failSend)).map (fun c => { c with inbox := c.inbox ++ [e] }),
       (reg.filter (fun c => c.failSend)).map (fun c => c.id)) := by
  induction reg with
  | nil => rfl
  | cons c cs ih =>
    have hc : c.readyOpen = true := h c (List.mem_cons_self c cs)
    have hcs : ∀ x ∈ cs, x.readyOpen = true := fun x hx => h x (List.mem_cons_of_mem c hx)
    have hcond : ¬((none : Option ℕ) = some c.id ∨ c.readyOpen = false) := by
      simp [hc]
    simp only [broadcast]
    rw [if_neg hcond, ih hcs]
    by_cases hf : c.failSend
    · simp [hf, List.filter_cons]
    · simp [hf, List.filter_cons]

/-- Broadcasting a list of events over an all-open, never-failing
registry delivers every event to every connection and removes nobody. -/
theorem broadcastAll_clean (evs : List ℕ) (reg : List Conn)
    (hopen : ∀ c ∈ reg, c.readyOpen = true) (hok : ∀ c ∈ reg, c.failSend = false) :
    broadcastAll evs none reg =
      (reg.map (fun c => { c with inbox := c.inbox ++ evs }), []) := by
  induction evs generalizing reg with
  | nil => simp [broadcastAll]
  | cons e es ih =>
    simp only [broadcastAll]
    rw [broadcast_all_open e reg hopen]
    have hfilter1 : reg.filter (fun c => !c.failSend) = reg := by
      rw [List.filter_eq_self]
      intro c hc
      simp [hok c hc]
    have hfilter2 : reg.filter (fun c => c.failSend) = [] := by
      rw [List.filter_eq_nil_iff]
      intro c hc
      simp [hok c hc]
    rw [hfilter1, hfilter2]
    dsimp only
    rw [ih (reg.map (fun c => { c with inbox := c.inbox ++ [e] }))
      (by intro x hx
          obtain ⟨c, hc, rfl⟩ := List.mem_map.mp hx
          exact hopen c hc)
      (by intro x hx
          obtain ⟨c, hc, rfl⟩ := List.mem_map.mp hx
          exact hok c hc)]
    rw [List.map_map, List.map_nil]
    refine Prod.ext ?_ rfl
    apply List.map_congr_left
    intro c hc
    simp [Function.comp, List.append_assoc]

/-! ## Claim theorems -/

/-- Claim C1 (amended): for every raw settings input and every fallback
record, `sanitizeSettings` returns a record in which every field is
present; the color is a non-empty string, the cursor mode is halo or
star, and the username has at most 18 characters, unconditionally; the
size and the glow are finite numbers in `[0.5, 3]` provided the selected
value (the raw field when it is a number, NaN and the infinities
included, else the fallback field) is not NaN; and a raw size or glow
field that is not a number by `typeof` is replaced by the fallback value
before clamping.  The color, cursor-mode and username conjuncts carry no
hypothesis; only the two range conjuncts are conditioned on their
selected value not being NaN. -/
theorem C1_sanitize_invariants (raw : RawSettings) (f : SettingsRecord) :
    (sanitizeSettings raw f).color ≠ [] ∧
    ((sanitizeSettings raw f).cursorMode = "halo".toList ∨
      (sanitizeSettings raw f).cursorMode = "star".toList) ∧
    (sanitizeSettings raw f).username.length ≤ 18 ∧
    (numOr raw.size f.size ≠ .nan →
      ∃ q : ℚ, (sanitizeSettings raw f).size = .fin q ∧ 1 / 2 ≤ q ∧ q ≤ 3) ∧
    (numOr raw.glow f.glow ≠ .nan →
      ∃ q : ℚ, (sanitizeSettings raw f).glow = .fin q ∧ 1 / 2 ≤ q ∧ q ≤ 3) ∧
    ((∀ n, raw.size ≠ JVal.num n) →
      (sanitizeSettings raw f).size = clamp f.size (.fin (1 / 2)) (.fin 3)) ∧
    ((∀ n, raw.glow ≠ JVal.num n) →
      (sanitizeSettings raw f).glow = clamp f.glow (.fin (1 / 2)) (.fin 3)) := by
  refine ⟨sanitizeColor_ne_nil _ _, sanitizeCursorMode_cases _ _, sanitizeUsername_len _ _,
    fun hs => clamp_range _ hs, fun hg => clamp_range _ hg, ?_, ?_⟩
  · intro hn
    have hv : numOr raw.size f.size = f.size := by
      cases hv : raw.size <;> simp [numOr]
      exact absurd hv (hn _)
    simp only [sanitizeSettings, hv]
  · intro hn
    have hv : numOr raw.glow f.glow = f.glow := by
      cases hv : raw.glow <;> simp [numOr]
      exact absurd hv (hn _)
    simp only [sanitizeSettings, hv]

/-- Witness for claim C1: at the empty raw input against the default
record every unconditional invariant holds, the NaN side conditions of
the two range conjuncts are discharged concretely, and the
replaced-by-fallback clauses apply since the raw fields are absent. -/
theorem C1_sanitize_invariants_witness :
    (sanitizeSettings {} DEFAULT_SETTINGS).color ≠ [] ∧
    ((sanitizeSettings {} DEFAULT_SETTINGS).cursorMode = "halo".toList ∨
      (sanitizeSettings {} DEFAULT_SETTINGS).cursorMode = "star".toList) ∧
    (sanitizeSettings {} DEFAULT_SETTINGS).username.length ≤ 18 ∧
    (∃ q : ℚ, (sanitizeSettings {} DEFAULT_SETTINGS).size = .fin q ∧ 1 / 2 ≤ q ∧ q ≤ 3) ∧
    (∃ q : ℚ, (sanitizeSettings {} DEFAULT_SETTINGS).glow = .fin q ∧ 1 / 2 ≤ q ∧ q ≤ 3) ∧
    (sanitizeSettings {} DEFAULT_SETTINGS).size =
      clamp DEFAULT_SETTINGS.size (.fin (1 / 2)) (.fin 3) ∧
    (sanitizeSettings {} DEFAULT_SETTINGS).glow =
      clamp DEFAULT_SETTINGS.glow (.fin (1 / 2)) (.fin 3) :=
  ⟨(C1_sanitize_invariants {} DEFAULT_SETTINGS).1,
   (C1_sanitize_invariants {} DEFAULT_SETTINGS).2.1,
   (C1_sanitize_invariants {} DEFAULT_SETTINGS).2.2.1,
   (C1_sanitize_invariants {} DEFAULT_SETTINGS).2.2.2.1 (by decide),
   (C1_sanitize_invariants {} DEFAULT_SETTINGS).2.2.2.2.1 (by decide),
   (C1_sanitize_invariants {} DEFAULT_SETTINGS).2.2.2.2.2.1 (fun n h => nomatch h),
   (C1_sanitize_invariants {} DEFAULT_SETTINGS).2.2.2.2.2.2 (fun n h => nomatch h)⟩

/-- Counterexample for claim C1 as stated: a raw size of NaN passes the
`typeof` number test of the source, survives `clamp` unchanged, and
yields a sanitized size that is NaN rather than a finite number in
`[0.5, 3]` or the fallback value. -/
theorem C1_nan_size_counterexample :
    (sanitizeSettings { size := JVal.num .nan } DEFAULT_SETTINGS).size = JNum.nan := by
  decide

/-- Claim C2 (amended): `sanitizeSettings` is idempotent with respect to
a fixed fallback whenever the fallback color is already trimmed or
whitespace-only and neither the raw username (when it is a string) nor
the fallback username produces a trailing whitespace character after
trimming and truncation to 18 characters; without these side conditions
idempotence fails. -/
theorem C2_sanitize_idempotent (x : RawSettings) (f : SettingsRecord)
    (hc : jsTrim f.color = f.color ∨ jsTrim f.color = [])
    (hx : ∀ u, x.username = .str u → endsInWs ((jsTrim u).take 18) = false)
    (hf : endsInWs ((jsTrim f.username).take 18) = false) :
    sanitizeSettings (toRaw (sanitizeSettings x f)) f = sanitizeSettings x f := by
  simp only [sanitizeSettings, toRaw]
  rw [SettingsRecord.mk.injEq]
  refine ⟨sanitizeColor_idem _ _ hc, ?_, ?_, sanitizeCursorMode_idem _ _,
    sanitizeUsername_idem _ _ hx hf⟩
  · exact clamp_idem _
  · exact clamp_idem _

/-- Witness for claim C2: the empty raw input against the default
record is a fixed point of a second sanitization pass. -/
theorem C2_sanitize_idempotent_witness :
    sanitizeSettings (toRaw (sanitizeSettings {} DEFAULT_SETTINGS)) DEFAULT_SETTINGS =
      sanitizeSettings {} DEFAULT_SETTINGS :=
  C2_sanitize_idempotent {} DEFAULT_SETTINGS (by decide) (fun u h => nomatch h) (by decide)

/-- Counterexample for claim C2 as stated: a 19-character username whose
18th character is a space is truncated to a string with trailing
whitespace, which the second pass trims again, so the two passes
disagree. -/
theorem C2_idempotence_counterexample :
    sanitizeSettings
        (toRaw (sanitizeSettings { username := .str ("abcdefghijklmnopq r".toList) }
          DEFAULT_SETTINGS)) DEFAULT_SETTINGS ≠
      sanitizeSettings { username := .str ("abcdefghijklmnopq r".toList) } DEFAULT_SETTINGS := by
  intro h
  have h2 := congrArg SettingsRecord.username h
  revert h2
  decide

/-- Claim C3 (amended): a raw username whose trimmed form is non-empty
is trimmed and truncated to at most 18 characters, exactly 18 when the
trimmed form has at least 18; a raw username that is empty or
all-whitespace after trimming falls back to the fallback record's
trimmed, truncated username; when that is also empty, `sanitizeSettings`
yields the empty string; the deterministic placeholder, the string
`Star-` followed by the last four characters of the identity
upper-cased, is produced by the client's `getFallbackUsername` when
ingesting remote settings and is never empty. -/
theorem C3_username_normalization :
    (∀ (raw : RawSettings) (f : SettingsRecord) (u : List Char),
        raw.username = .str u → jsTrim u ≠ [] →
        (sanitizeSettings raw f).username = (jsTrim u).take 18 ∧
        (18 ≤ (jsTrim u).length → ((sanitizeSettings raw f).username).length = 18)) ∧
    (∀ (raw : RawSettings) (f : SettingsRecord) (u : List Char),
        raw.username = .str u → jsTrim u = [] → jsTrim f.username ≠ [] →
        (sanitizeSettings raw f).username = (jsTrim f.username).take 18) ∧
    (∀ (raw : RawSettings) (f : SettingsRecord) (u : List Char),
        raw.username = .str u → jsTrim u = [] → jsTrim f.username = [] →
        (sanitizeSettings raw f).username = []) ∧
    (∀ cid : List Char, cid ≠ [] →
        getFallbackUsername cid =
          "Star-".toList ++ (cid.drop (cid.length - 4)).map Char.toUpper ∧
        getFallbackUsername cid ≠ []) := by
  refine ⟨?_, ?_, ?_, ?_⟩
  · intro raw f u hu hne
    have hbase : (sanitizeSettings raw f).username = sanitizeUsername raw.username f.username := rfl
    rw [hbase, hu]
    simp only [sanitizeUsername]
    rw [if_pos hne]
    refine ⟨rfl, ?_⟩
    intro hlen
    rw [List.length_take]
    exact min_eq_left hlen
  · intro raw f u hu ht hf
    have hbase : (sanitizeSettings raw f).username = sanitizeUsername raw.username f.username := rfl
    rw [hbase, hu]
    simp only [sanitizeUsername]
    rw [if_neg (by simp [ht]), if_pos ⟨fun h => hf (by rw [h]; rfl), hf⟩]
  · intro raw f u hu ht hf
    have hbase : (sanitizeSettings raw f).username = sanitizeUsername raw.username f.username := rfl
    rw [hbase, hu]
    simp only [sanitizeUsername]
    rw [if_neg (by simp [ht]), if_neg (by simp [hf])]
  · intro cid hc
    unfold getFallbackUsername
    rw [if_neg hc]
    exact ⟨rfl, by simp⟩

/-- Witness for claim C3: a padded 21-character username is trimmed and
truncated, and a concrete identity gets a non-empty placeholder. -/
theorem C3_username_normalization_witness :
    (sanitizeSettings { username := .str ("  Abcdefghijklmnopqrstu  ".toList) }
        DEFAULT_SETTINGS).username =
      (jsTrim ("  Abcdefghijklmnopqrstu  ".toList)).take 18 ∧
    getFallbackUsername ("client_ab12".toList) ≠ [] :=
  ⟨(C3_username_normalization.1 _ DEFAULT_SETTINGS _ rfl (by decide)).1,
   (C3_username_normalization.2.2.2 ("client_ab12".toList) (by decide)).2⟩

/-- Counterexample for claim C3 as stated: an all-whitespace raw
username with an empty fallback username sanitizes to the empty string,
not to a placeholder, so the sanitized username can be empty. -/
theorem C3_empty_username_counterexample :
    (sanitizeSettings { username := .str ("   ".toList) } DEFAULT_SETTINGS).username = [] := by
  decide

/-- Claim C4 (amended): after a tick at time `now`, a point of an
identity present in the store remains in that identity's trail exactly
when its age is strictly below the 4000 ms fade duration and its linear
residual opacity `1 - age / fadeDuration` is strictly above the 0.05
floor; the source prunes on this linear opacity, not on the quadratic
ease-out curve the claim states.  In particular a point whose age is at
least the fade duration is never in the output. -/
theorem C4_tick_retention (now : ℚ) (store : TrailStore) (id : List Char)
    (pts : List TrailPoint) (p : TrailPoint)
    (hnd : (store.map Prod.fst).Nodup) (hin : (id, pts) ∈ store) (hp : p ∈ pts) :
    (∃ ps, (id, ps) ∈ renderPrune now store ∧ p ∈ ps) ↔
      (now - p.timestamp < trailFadeTime ∧
        minAlpha < 1 - (now - p.timestamp) / trailFadeTime) := by
  rw [← pointActive_iff]
  constructor
  · rintro ⟨ps, hmem, hpps⟩
    unfold renderPrune at hmem
    obtain ⟨h1, -⟩ := List.mem_filter.mp hmem
    obtain ⟨e, he, heq⟩ := List.mem_map.mp h1
    obtain ⟨he1, he2⟩ := Prod.mk.injEq _ _ _ _ ▸ heq
    have he3 : e.2 = pts := by
      have he4 : e = (e.1, e.2) := rfl
      rw [he4, he1] at he
      exact keyUnique store hnd he hin
    rw [← he2, he3] at hpps
    exact (List.mem_filter.mp hpps).2
  · intro hact
    refine ⟨pts.filter (pointActive now), ?_, List.mem_filter.mpr ⟨hp, hact⟩⟩
    unfold renderPrune
    apply List.mem_filter.mpr
    constructor
    · exact List.mem_map.mpr ⟨(id, pts), hin, rfl⟩
    · have hne : pts.filter (pointActive now) ≠ [] :=
        List.ne_nil_of_mem (List.mem_filter.mpr ⟨hp, hact⟩)
      simpa [List.isEmpty_iff] using hne

/-- Witness for claim C4: a 100 ms old point is retained, matching the
linear retention condition. -/
theorem C4_tick_retention_witness :
    (∃ ps, ("a".toList, ps) ∈ renderPrune 100 [("a".toList, [⟨5, 6, 0⟩])] ∧
        (⟨5, 6, 0⟩ : TrailPoint) ∈ ps) ↔
      ((100 : ℚ) - (⟨5, 6, 0⟩ : TrailPoint).timestamp < trailFadeTime ∧
        minAlpha < 1 - ((100 : ℚ) - (⟨5, 6, 0⟩ : TrailPoint).timestamp) / trailFadeTime) :=
  C4_tick_retention 100 [("a".toList, [⟨5, 6, 0⟩])] ("a".toList) [⟨5, 6, 0⟩] ⟨5, 6, 0⟩
    (by decide) (by decide) (by decide)

/-- Counterexample for claim C4 as stated: at age 3850 ms the quadratic
ease-out opacity of the claim is about 0.074, above the 0.05 floor, so
the claim keeps the point; the source's linear opacity is 0.0375, so the
tick removes the whole trail. -/
theorem C4_quadratic_opacity_counterexample :
    specOpacityKeep 3850 ⟨0, 0, 0⟩ ∧
      renderPrune 3850 [("a".toList, [⟨0, 0, 0⟩])] = [] := by
  constructor
  · constructor
    · norm_num [trailFadeTime, specOpacityKeep]
    · norm_num [trailFadeTime, minAlpha, specOpacityKeep, min_def, max_def]
  · norm_num [renderPrune, pointActive, trailFadeTime, minAlpha, List.filter]

/-- Claim C5 (amended): a trail point created at time 0 under the
4000 ms fade duration is still present after a tick at 3799 ms, but is
already absent after a tick at 3999 ms, because the linear
minimum-visibility floor removes points from age 3800 ms on, and is
absent after a tick at 4001 ms. -/
theorem C5_point_lifetime :
    renderPrune 3799 [("a".toList, [⟨0, 0, 0⟩])] = [("a".toList, [⟨0, 0, 0⟩])] ∧
    renderPrune 3999 [("a".toList, [⟨0, 0, 0⟩])] = [] ∧
    renderPrune 4001 [("a".toList, [⟨0, 0, 0⟩])] = [] := by
  refine ⟨?_, ?_, ?_⟩ <;>
    norm_num [renderPrune, pointActive, trailFadeTime, minAlpha, List.filter]

/-- Counterexample for claim C5 as stated: after a tick at 3999 ms the
point created at time 0 is already gone, while the claim says it is
still present. -/
theorem C5_present_counterexample :
    ¬ ∃ ps, ("a".toList, ps) ∈ renderPrune 3999 [("a".toList, [⟨0, 0, 0⟩])] ∧
        (⟨0, 0, 0⟩ : TrailPoint) ∈ ps := by
  have h : renderPrune 3999 [("a".toList, [⟨0, 0, 0⟩])] = [] := by
    norm_num [renderPrune, pointActive, trailFadeTime, minAlpha, List.filter]
  rw [h]
  rintro ⟨ps, hmem, -⟩
  simp at hmem

/-- Claim C6: after every tick pass, no identity is mapped to an empty
trail; every entry of the pruned store has a non-empty point list. -/
theorem C6_no_empty_trails (now : ℚ) (store : TrailStore)
    (e : List Char × List TrailPoint) (he : e ∈ renderPrune now store) : e.2 ≠ [] := by
  unfold renderPrune at he
  have h2 := (List.mem_filter.mp he).2
  simpa [List.isEmpty_iff] using h2

/-- Witness for claim C6: the surviving entry of a concrete tick has a
non-empty trail. -/
theorem C6_no_empty_trails_witness :
    (("a".toList, [(⟨0, 0, 0⟩ : TrailPoint)]) : List Char × List TrailPoint).2 ≠ [] :=
  C6_no_empty_trails 0 [("a".toList, [⟨0, 0, 0⟩])] ("a".toList, [⟨0, 0, 0⟩])
    (by norm_num [renderPrune, pointActive, trailFadeTime, minAlpha, List.filter])

/-- Claim C7: broadcasting a non-empty list of events over an all-open
registry in which exactly one connection's transport fails delivers
every event to every other connection, the failure does not abort
delivery, and the failing connection is removed from the registry
exactly once. -/
theorem C7_broadcast_fanout (e : ℕ) (es : List ℕ) (reg : List Conn)
    (hopen : ∀ c ∈ reg, c.readyOpen = true)
    (hone : (reg.filter (fun c => c.failSend)).length = 1) :
    (broadcastAll (e :: es) none reg).1 =
      (reg.filter (fun c => !c.failSend)).map
        (fun c => { c with inbox := c.inbox ++ (e :: es) }) ∧
    (broadcastAll (e :: es) none reg).2.length = 1 ∧
    (∀ i ∈ (broadcastAll (e :: es) none reg).2,
      ∃ c, c ∈ reg ∧ c.failSend = true ∧ c.id = i) := by
  have key : broadcastAll (e :: es) none reg =
      ((reg.filter (fun c => !c.failSend)).map
        (fun c => { c with inbox := c.inbox ++ (e :: es) }),
       (reg.filter (fun c => c.failSend)).map (fun c => c.id)) := by
    simp only [broadcastAll]
    rw [broadcast_all_open e reg hopen]
    dsimp only
    rw [broadcastAll_clean es _
      (by intro x hx
          obtain ⟨c, hc, rfl⟩ := List.mem_map.mp hx
          exact hopen c (List.mem_filter.mp hc).1)
      (by intro x hx
          obtain ⟨c, hc, rfl⟩ := List.mem_map.mp hx
          have := (List.mem_filter.mp hc).2
          simpa using this)]
    rw [List.map_map, List.append_nil]
    refine Prod.ext ?_ rfl
    apply List.map_congr_left
    intro c hc
    simp [Function.comp, List.append_assoc]
  rw [key]
  refine ⟨rfl, by simpa using hone, ?_⟩
  intro i hi
  obtain ⟨c, hc, rfl⟩ := List.mem_map.mp hi
  exact ⟨c, (List.mem_filter.mp hc).1, (List.mem_filter.mp hc).2, rfl⟩

/-- Witness for claim C7: two events over three open connections with
one always-failing transport reach both healthy peers, and the failing
connection is removed exactly once. -/
theorem C7_broadcast_fanout_witness :
    (broadcastAll [1, 2] none
        [⟨10, true, false, []⟩, ⟨11, true, true, []⟩, ⟨12, true, false, []⟩]).1 =
      ([⟨10, true, false, []⟩, ⟨11, true, true, []⟩,
        (⟨12, true, false, []⟩ : Conn)].filter (fun c => !c.failSend)).map
        (fun c => { c with inbox := c.inbox ++ [1, 2] }) ∧
    (broadcastAll [1, 2] none
        [⟨10, true, false, []⟩, ⟨11, true, true, []⟩, ⟨12, true, false, []⟩]).2.length = 1 ∧
    (∀ i ∈ (broadcastAll [1, 2] none
        [⟨10, true, false, []⟩, ⟨11, true, true, []⟩, ⟨12, true, false, []⟩]).2,
      ∃ c, c ∈ [⟨10, true, false, []⟩, ⟨11, true, true, []⟩,
        (⟨12, true, false, []⟩ : Conn)] ∧ c.failSend = true ∧ c.id = i) :=
  C7_broadcast_fanout 1 [2] _ (by decide) (by decide)

/-- Claim C8, evaluation at the failing input: connection 1 misses its
probe reply, the heartbeat evicts it from the registry before
terminating the socket, and the close handler, finding no registry
entry, broadcasts a clientLeft whose clientId is `none` (undefined on
the wire) instead of the terminated connection's id; the updated count
is carried and the remaining peers receive the message. -/
theorem C8_liveness_clientLeft_eval :
    heartbeatOnDead
        [⟨1, false, true, []⟩, ⟨2, true, true, []⟩, ⟨3, true, true, []⟩] 1 =
      ([⟨2, true, true, [⟨none, 2⟩]⟩, ⟨3, true, true, [⟨none, 2⟩]⟩],
        ({ clientId := none, clientCount := 2 } : LeftMsg)) := by
  decide

/-- Claim C9 (amended): when the socket is not open, outbound drawing
messages are dropped locally with no state change and no queuing, and a
settings update is not transmitted immediately; but the settings update
is not dropped: a retry timer is scheduled, and once the socket opens
the pending retry transmits the settings message. -/
theorem C9_offline_guards (st : ClientNet) (h : st.ready ≠ .opened) :
    drawSendGuard st = st ∧
    mouseSendGuard st = st ∧
    (sendSettingsUpdate st).sent = st.sent ∧
    (sendSettingsUpdate st).settingsTimerPending = true ∧
    (settingsTimerFire (socketOpens (sendSettingsUpdate st))).sent =
      st.sent ++ [COut.updateSettings] := by
  refine ⟨?_, ?_, ?_, ?_, ?_⟩
  · simp [drawSendGuard, h]
  · simp [mouseSendGuard, h]
  · simp [sendSettingsUpdate, h]
  · simp [sendSettingsUpdate, h]
  · simp [sendSettingsUpdate, settingsTimerFire, socketOpens, h]

/-- Witness for claim C9: a closed client drops drawing sends and
schedules the settings retry that fires after the socket opens. -/
theorem C9_offline_guards_witness :
    drawSendGuard ⟨.closed, false, []⟩ = ⟨.closed, false, []⟩ ∧
    mouseSendGuard ⟨.closed, false, []⟩ = ⟨.closed, false, []⟩ ∧
    (sendSettingsUpdate ⟨.closed, false, []⟩).sent = (⟨.closed, false, []⟩ : ClientNet).sent ∧
    (sendSettingsUpdate ⟨.closed, false, []⟩).settingsTimerPending = true ∧
    (settingsTimerFire (socketOpens (sendSettingsUpdate ⟨.closed, false, []⟩))).sent =
      (⟨.closed, false, []⟩ : ClientNet).sent ++ [COut.updateSettings] :=
  C9_offline_guards ⟨.closed, false, []⟩ (by decide)

/-- Counterexample for claim C9 as stated: while connecting, a settings
update sends nothing, yet after the socket opens the scheduled retry
transmits it, so the message was queued for transmission after the
socket later opened, contrary to the claim. -/
theorem C9_settings_retry_counterexample :
    (sendSettingsUpdate ⟨.connecting, false, []⟩).sent = [] ∧
    (settingsTimerFire (socketOpens (sendSettingsUpdate ⟨.connecting, false, []⟩))).sent =
      [COut.updateSettings] := by
  decide

/-- Claim C10: handling a clear message from the server empties the
entire trail store, the local user's trail included, and deletes every
remote cursor sample, while the per-identity settings mirror is left
unchanged. -/
theorem C10_clear_message_effect (st : ClientStore) :
    (handleClearMessage st).allTrails = [] ∧
    (handleClearMessage st).otherCursors = [] ∧
    (handleClearMessage st).userSettings = st.userSettings :=
  ⟨rfl, rfl, rfl⟩

end LightTrails
